import Mathlib

/-!
Verification of the EdgeClaw Core trust-and-channel subsystem
(`edgeclaw-core`): the ECNP v1.1 framing codec, the session manager's
AEAD encrypt/decrypt with counter-based nonces, the sync message layer,
the role/risk policy engine, and the peer registry.

Each Rust function is embedded as a Lean definition over lists of bytes
(`List Nat`, each element a value 0‥255), with machine integers as `Nat`
reduced modulo `2 ^ 64` where the source performs `u64` arithmetic, and
fallible functions returning `Except EdgeClawError`.  Mutable state
(`HashMap`-backed managers) becomes explicit state passing on function
maps, and wall-clock time (`chrono::Utc::now()`) an explicit integer
parameter.  External crates (aes_gcm, serde_json) are modelled through
their functional contracts, as parameters of the theorems that need
them.
-/

namespace EdgeClaw

/-- Error kinds of the core (src/error.rs, `enum EdgeClawError`). -/
inductive EdgeClawError where
  | cryptoError
  | connectionError
  | policyDenied
  | invalidCapability
  | sessionExpired
  | invalidParameter
  | timeoutError
  | serializationError
  | internalError
deriving DecidableEq

/-- Decidable equality for `Except` results, used to evaluate the
embedded functions at concrete inputs in witnesses and counterexamples. -/
instance exceptDecEq {ε α : Type} [DecidableEq ε] [DecidableEq α] :
    DecidableEq (Except ε α) := fun x y =>
  match x, y with
  | .ok a, .ok b =>
    if h : a = b then .isTrue (by rw [h]) else .isFalse (by simp [h])
  | .error a, .error b =>
    if h : a = b then .isTrue (by rw [h]) else .isFalse (by simp [h])
  | .ok _, .error _ => .isFalse (by simp)
  | .error _, .ok _ => .isFalse (by simp)

/-- Big-endian byte decomposition of a `u32` (`u32::to_be_bytes`);
for arguments at least `2 ^ 32` this yields the bytes of the value
modulo `2 ^ 32`, matching the machine integer. -/
def be32 (n : Nat) : List Nat :=
  [n / 2 ^ 24 % 256, n / 2 ^ 16 % 256, n / 2 ^ 8 % 256, n % 256]

/-- Reassembly of four big-endian bytes into a `u32`
(`u32::from_be_bytes`). -/
def be32val (a b c d : Nat) : Nat :=
  ((a * 256 + b) * 256 + c) * 256 + d

/-- Big-endian byte decomposition of a `u64` (`u64::to_be_bytes`). -/
def be64 (n : Nat) : List Nat :=
  [n / 2 ^ 56 % 256, n / 2 ^ 48 % 256, n / 2 ^ 40 % 256, n / 2 ^ 32 % 256,
   n / 2 ^ 24 % 256, n / 2 ^ 16 % 256, n / 2 ^ 8 % 256, n % 256]

/-- Message type codes of ECNP v1.1 (src/protocol.rs, `enum MessageType`). -/
inductive MessageType where
  | Handshake
  | Data
  | Control
  | Heartbeat
  | Ack
  | Error
deriving DecidableEq

/-- Byte value of a message type (`MessageType as u8`, via `#[repr(u8)]`). -/
def MessageType.toByte : MessageType → Nat
  | .Handshake => 0x01
  | .Data => 0x02
  | .Control => 0x03
  | .Heartbeat => 0x04
  | .Ack => 0x05
  | .Error => 0x06

/-- Validation of a message type byte
(src/protocol.rs, `impl TryFrom<u8> for MessageType`). -/
def MessageType.tryFrom (v : Nat) : Except EdgeClawError MessageType :=
  match v with
  | 0x01 => .ok .Handshake
  | 0x02 => .ok .Data
  | 0x03 => .ok .Control
  | 0x04 => .ok .Heartbeat
  | 0x05 => .ok .Ack
  | 0x06 => .ok .Error
  | _ => .error .invalidParameter

/-- Parsed ECNP frame (src/ecnp.rs, `struct EcnpMessage`). -/
structure EcnpMessage where
  version : Nat
  msg_type : Nat
  payload : List Nat
deriving DecidableEq

/-- Current protocol version (src/ecnp.rs, `ECNP_VERSION`). -/
def ECNP_VERSION : Nat := 0x01

/-- Header size in bytes (src/ecnp.rs, `HEADER_SIZE`). -/
def HEADER_SIZE : Nat := 6

/-- Maximum payload size in bytes (src/ecnp.rs, `MAX_PAYLOAD_SIZE`). -/
def MAX_PAYLOAD_SIZE : Nat := 1024 * 1024

namespace EcnpCodec

/-- ECNP frame encoder (src/ecnp.rs, `EcnpCodec::encode`). -/
def encode (msg_type : MessageType) (payload : List Nat) :
    Except EdgeClawError (List Nat) :=
  if payload.length > MAX_PAYLOAD_SIZE then
    .error .invalidParameter
  else
    .ok ([ECNP_VERSION, msg_type.toByte] ++ be32 payload.length ++ payload)

/-- ECNP frame decoder (src/ecnp.rs, `EcnpCodec::decode`).  The source
checks `data.len() < HEADER_SIZE` and later
`data.len() < HEADER_SIZE + length`; matching off the six header bytes,
the latter is `rest.length < length`, and `data[6..6+length]` is
`rest.take length`. -/
def decode (data : List Nat) : Except EdgeClawError EcnpMessage :=
  match data with
  | v :: t :: l3 :: l2 :: l1 :: l0 :: rest =>
    if v ≠ ECNP_VERSION then
      .error .invalidParameter
    else
      match MessageType.tryFrom t with
      | .error e => .error e
      | .ok _ =>
        let length := be32val l3 l2 l1 l0
        if length > MAX_PAYLOAD_SIZE then
          .error .invalidParameter
        else if rest.length < length then
          .error .invalidParameter
        else
          .ok ⟨v, t, rest.take length⟩
  | _ => .error .invalidParameter

end EcnpCodec

/-- Session lifecycle state (src/session.rs, `enum SessionState`). -/
inductive SessionState where
  | Initiating
  | Established
  | Expired
deriving DecidableEq

/-- Internal session record (src/session.rs, `struct Session`).  Timestamps
(`chrono::DateTime<chrono::Utc>`) are embedded as integer instants; the
`u64` counters are `Nat` values kept below `2 ^ 64` by the operations. -/
structure Session where
  session_id : String
  peer_id : String
  state : SessionState
  session_key : List Nat
  nonce_counter : Nat
  created_at : Int
  expires_at : Int
  messages_sent : Nat
  messages_received : Nat
deriving DecidableEq

/-- Expiry test (src/session.rs, `Session::is_expired`):
`chrono::Utc::now() >= self.expires_at`, with the current time passed
explicitly. -/
def Session.is_expired (s : Session) (now : Int) : Bool :=
  s.expires_at ≤ now

/-- Sessions map of the manager (src/session.rs,
`SessionManager.sessions : HashMap<String, Session>`). -/
abbrev SessionMap := String → Option Session

/-- Map update, the semantics of `HashMap::insert` and of writing through
`HashMap::get_mut`. -/
def SessionMap.update (m : SessionMap) (k : String) (s : Session) : SessionMap :=
  fun x => if x = k then some s else m x

/-- Functional contract of the AES-256-GCM AEAD used by the session
manager (the external aes_gcm crate): encryption and decryption, each
taking key, 12-byte nonce and data, returning `none` on failure.  The
theorems that need its behaviour take the defining equations as
hypotheses. -/
structure Aead where
  enc : List Nat → List Nat → List Nat → Option (List Nat)
  dec : List Nat → List Nat → List Nat → Option (List Nat)

/-- Nonce construction in `SessionManager::encrypt`: a zeroed 12-byte
array whose bytes 4‥11 are the big-endian `u64` counter. -/
def nonceBytes (counter : Nat) : List Nat :=
  [0, 0, 0, 0] ++ be64 counter

/-- Value of a nonce as an unsigned big-endian integer (the reading under
which the specification requires strict growth). -/
def nonceVal (bs : List Nat) : Nat :=
  bs.foldl (fun acc b => acc * 256 + b) 0

/-- Session record built by `SessionManager::create_session`
(src/session.rs).  The X25519 shared secret and HKDF-SHA256 derivation are
external crypto (x25519_dalek, hkdf crates); the derived 32-byte key is a
parameter. -/
def createdSession (session_id peer_id : String) (session_key : List Nat)
    (now : Int) (session_duration_secs : Int) : Session :=
  { session_id := session_id
    peer_id := peer_id
    state := .Established
    session_key := session_key
    nonce_counter := 0
    created_at := now
    expires_at := now + session_duration_secs
    messages_sent := 0
    messages_received := 0 }

/-- Embedding of `SessionManager::encrypt` (src/session.rs, lines
133‥168).  Mirrors the source order: session lookup, expiry check (which
also flips the state to Expired), cipher construction
(`Aes256Gcm::new_from_slice` fails only on a key whose length is not 32),
nonce construction from the counter, counter increment (performed before
the AEAD call, so it persists even when the AEAD fails), AEAD encryption,
nonce-prepended result, `messages_sent` increment on success. -/
def encrypt (A : Aead) (sessions : SessionMap) (session_id : String)
    (plaintext : List Nat) (now : Int) :
    Except EdgeClawError (List Nat) × SessionMap :=
  match sessions session_id with
  | none => (.error .invalidParameter, sessions)
  | some s =>
    if s.is_expired now then
      (.error .sessionExpired, sessions.update session_id { s with state := .Expired })
    else if s.session_key.length ≠ 32 then
      (.error .cryptoError, sessions)
    else
      let nonce_bytes := nonceBytes s.nonce_counter
      let s1 := { s with nonce_counter := (s.nonce_counter + 1) % 2 ^ 64 }
      match A.enc s.session_key nonce_bytes plaintext with
      | none => (.error .cryptoError, sessions.update session_id s1)
      | some ciphertext =>
        (.ok (nonce_bytes ++ ciphertext),
          sessions.update session_id
            { s1 with messages_sent := (s1.messages_sent + 1) % 2 ^ 64 })

/-- Embedding of `SessionManager::decrypt` (src/session.rs, lines
171‥200): length check before lookup, lookup, expiry check (flipping the
state), cipher construction, split of the leading 12-byte nonce, AEAD
decryption, `messages_received` increment on success. -/
def decrypt (A : Aead) (sessions : SessionMap) (session_id : String)
    (ciphertext : List Nat) (now : Int) :
    Except EdgeClawError (List Nat) × SessionMap :=
  if ciphertext.length < 12 then
    (.error .invalidParameter, sessions)
  else
    match sessions session_id with
    | none => (.error .invalidParameter, sessions)
    | some s =>
      if s.is_expired now then
        (.error .sessionExpired, sessions.update session_id { s with state := .Expired })
      else if s.session_key.length ≠ 32 then
        (.error .cryptoError, sessions)
      else
        match A.dec s.session_key (ciphertext.take 12) (ciphertext.drop 12) with
        | none => (.error .cryptoError, sessions)
        | some plaintext =>
          (.ok plaintext,
            sessions.update session_id
              { s with messages_received := (s.messages_received + 1) % 2 ^ 64 })

/-- Sequence of successive successful encrypt calls on one session:
`EncryptSeq A sid st outs st2` holds when, starting from session map
`st`, a run of `encrypt` calls on `sid` (with arbitrary plaintexts and
call times) all succeed, produce the framed outputs `outs` in order, and
leave the map at `st2`. -/
inductive EncryptSeq (A : Aead) (sid : String) :
    SessionMap → List (List Nat) → SessionMap → Prop where
  | nil (st : SessionMap) : EncryptSeq A sid st [] st
  | cons (st st2 : SessionMap) (pt out : List Nat) (now : Int)
      (outs : List (List Nat))
      (hok : (encrypt A st sid pt now).1 = .ok out)
      (hrest : EncryptSeq A sid (encrypt A st sid pt now).2 outs st2) :
      EncryptSeq A sid st (out :: outs) st2

/-- Degenerate AEAD instance (ciphertext equals plaintext, no tag), used
only to instantiate theorem hypotheses at concrete inputs in witnesses
and counterexamples. -/
def idAead : Aead :=
  ⟨fun _ _ data => some data, fun _ _ data => some data⟩

/-- Concrete fresh session used in witnesses. -/
def sessW : Session :=
  createdSession "sess-1" "peer-1" (List.replicate 32 0) 0 3600

/-- Concrete one-session map for witnesses. -/
def smapW : SessionMap :=
  fun k => if k = "sess-1" then some sessW else none

/-- Session whose `u64` nonce counter sits at its maximum, as reached
after `2 ^ 64 - 1` encrypt calls. -/
def sessC2 : Session :=
  { sessW with nonce_counter := 2 ^ 64 - 1 }

/-- One-session map holding `sessC2`. -/
def smapC2 : SessionMap :=
  fun k => if k = "sess-1" then some sessC2 else none

/-- Sync sub-type code of ConfigSync (src/sync.rs, `SYNC_CONFIG`). -/
def SYNC_CONFIG : Nat := 0x10

/-- Sync sub-type code of RemoteExec (src/sync.rs, `SYNC_REMOTE_EXEC`). -/
def SYNC_REMOTE_EXEC : Nat := 0x11

/-- Sync sub-type code of StatusPush (src/sync.rs, `SYNC_STATUS_PUSH`). -/
def SYNC_STATUS_PUSH : Nat := 0x12

/-- Sync sub-type code of RemoteExecResult (src/sync.rs,
`SYNC_REMOTE_EXEC_RESULT`). -/
def SYNC_REMOTE_EXEC_RESULT : Nat := 0x13

/-- Synchronization message (src/sync.rs, `enum SyncMessage`).  The `f64`
fields of StatusPush are carried as `Float`; no claim reasons about their
values. -/
inductive SyncMessage where
  | ConfigSync (config_hash config_data : String)
  | RemoteExec (command : String) (args : List String)
  | StatusPush (cpu_usage memory_usage disk_usage : Float)
      (uptime_secs : Nat) (active_sessions : Nat) (ai_status : String)
  | RemoteExecResult (command : String) (exit_code : Int)
      (stdout : String) (stderr : String)

/-- Sub-type code of a sync message (src/sync.rs,
`SyncMessage::sync_type_code`). -/
def SyncMessage.sync_type_code : SyncMessage → Nat
  | .ConfigSync _ _ => SYNC_CONFIG
  | .RemoteExec _ _ => SYNC_REMOTE_EXEC
  | .StatusPush _ _ _ _ _ _ => SYNC_STATUS_PUSH
  | .RemoteExecResult _ _ _ _ => SYNC_REMOTE_EXEC_RESULT

/-- Functional contract of serde_json on `SyncMessage`
(`SyncMessage::to_bytes` / `SyncMessage::from_bytes` in src/sync.rs wrap
`serde_json::to_vec` / `serde_json::from_slice`, collapsing library
errors into SerializationError).  Theorems that need the JSON round trip
take its defining equations as hypotheses. -/
structure SyncJson where
  to_vec : SyncMessage → Except EdgeClawError (List Nat)
  from_slice : List Nat → Except EdgeClawError SyncMessage

/-- Embedding of `SyncMessage::encode_ecnp` (src/sync.rs, lines 82‥89):
JSON-serialise, prefix the one-byte sub-type code, wrap in an ECNP Data
frame. -/
def encode_ecnp (J : SyncJson) (m : SyncMessage) :
    Except EdgeClawError (List Nat) :=
  match J.to_vec m with
  | .error e => .error e
  | .ok json_bytes => EcnpCodec.encode .Data (m.sync_type_code :: json_bytes)

/-- Embedding of `SyncMessage::decode_ecnp` (src/sync.rs, lines 92‥103):
ECNP-decode, require message type Data and a nonempty payload, read the
first payload byte as the sub-type (recorded, not validated), JSON-decode
the remainder. -/
def decode_ecnp (J : SyncJson) (frame : List Nat) :
    Except EdgeClawError (Nat × SyncMessage) :=
  match EcnpCodec.decode frame with
  | .error e => .error e
  | .ok msg =>
    if msg.msg_type ≠ MessageType.Data.toByte then
      .error .invalidParameter
    else
      match msg.payload with
      | [] => .error .invalidParameter
      | sync_type :: rest =>
        match J.from_slice rest with
        | .error e => .error e
        | .ok sync_msg => .ok (sync_type, sync_msg)

/-- Byte list of a string of ASCII characters. -/
def strBytes (s : String) : List Nat :=
  s.data.map Char.toNat

/-- Bytes of the serde_json document of `SyncMessage::RemoteExec
{ command: "ls", args: [] }`. -/
def jsonRemoteExecLs : List Nat :=
  strBytes "\x7b\"type\":\"remote_exec\",\"command\":\"ls\",\"args\":[]\x7d"

/-- The RemoteExec message with command "ls" and no arguments. -/
def msgRemoteExecLs : SyncMessage :=
  .RemoteExec "ls" []

/-- Pointwise model of serde_json at the single document
`jsonRemoteExecLs`: serialising `msgRemoteExecLs` yields those bytes and
deserialising them yields the message back (the library's behaviour on
that document); all other byte strings fail with SerializationError. -/
def serdeLs : SyncJson :=
  ⟨fun _ => .ok jsonRemoteExecLs,
   fun bs => if bs = jsonRemoteExecLs then .ok msgRemoteExecLs
             else .error .serializationError⟩

/-- ECNP Data frame whose payload starts with the reserved sub-type byte
0x14 followed by a well-formed RemoteExec JSON document. -/
def reservedFrame : List Nat :=
  [1, 2] ++ be32 (0x14 :: jsonRemoteExecLs).length ++ (0x14 :: jsonRemoteExecLs)

/-- RemoteExec message whose command is 2^20 copies of the letter a. -/
def bigMsg : SyncMessage :=
  .RemoteExec (String.mk (List.replicate 1048576 'a')) []

/-- Modelled from the library contract: `serde_json::to_vec` embeds
string contents verbatim, so the JSON document of `bigMsg` is its
1,048,576-character command plus 41 bytes of quoting and framing; only
the length matters here, so the bytes are abstracted as the letter a. -/
def serdeBig : SyncJson :=
  ⟨fun _ => .ok (List.replicate 1048617 97),
   fun _ => .error .serializationError⟩

/-- Capability risk levels (src/policy.rs, `enum RiskLevel`). -/
inductive RiskLevel where
  | None
  | Low
  | Medium
  | High
deriving DecidableEq

/-- Numeric value of a risk level (`RiskLevel as u8`). -/
def RiskLevel.toU8 : RiskLevel → Nat
  | .None => 0
  | .Low => 1
  | .Medium => 2
  | .High => 3

/-- Role-based access control roles (src/policy.rs, `enum Role`). -/
inductive Role where
  | Viewer
  | Operator
  | Admin
  | Owner
deriving DecidableEq

/-- Maximum allowed risk of a role (src/policy.rs,
`Role::max_allowed_risk`). -/
def Role.max_allowed_risk : Role → RiskLevel
  | .Viewer => .None
  | .Operator => .Low
  | .Admin => .Medium
  | .Owner => .High

/-- Per-character lowering of a string (`str::to_lowercase`; the source's
Unicode lowering coincides with ASCII per-character lowering on all
strings whose lowering the parser compares against). -/
def toLowercase (s : String) : String :=
  String.mk (s.data.map Char.toLower)

/-- Embedding of `Role::parse_role` (src/policy.rs): case-insensitive
match of the four role names. -/
def Role.parse_role (s : String) : Except EdgeClawError Role :=
  if toLowercase s = "viewer" then .ok .Viewer
  else if toLowercase s = "operator" then .ok .Operator
  else if toLowercase s = "admin" then .ok .Admin
  else if toLowercase s = "owner" then .ok .Owner
  else .error .invalidParameter

/-- Policy decision result (src/policy.rs, `struct PolicyDecision`). -/
structure PolicyDecision where
  allowed : Bool
  reason : String
  risk_level : Nat
deriving DecidableEq

/-- Capability entry (src/policy.rs, `struct Capability`). -/
structure Capability where
  name : String
  risk_level : RiskLevel
  description : String
deriving DecidableEq

/-- Built-in capability catalogue (src/policy.rs,
`register_default_capabilities`). -/
def defaultCapabilities : List Capability :=
  [⟨"status_query", .None, "Query device status"⟩,
   ⟨"heartbeat", .None, "Send/receive heartbeat"⟩,
   ⟨"file_read", .Low, "Read files from device"⟩,
   ⟨"sensor_read", .Low, "Read sensor data"⟩,
   ⟨"clipboard_read", .Low, "Read clipboard content"⟩,
   ⟨"file_write", .Medium, "Write files to device"⟩,
   ⟨"config_change", .Medium, "Modify device configuration"⟩,
   ⟨"clipboard_write", .Medium, "Write to clipboard"⟩,
   ⟨"shell_exec", .High, "Execute shell commands"⟩,
   ⟨"firmware_update", .High, "Update device firmware"⟩,
   ⟨"system_reboot", .High, "Reboot device"⟩]

/-- Policy engine state (src/policy.rs, `struct PolicyEngine`). -/
structure PolicyEngine where
  capabilities : List Capability
  default_deny : Bool

/-- Engine constructor (src/policy.rs, `PolicyEngine::new`): the default
catalogue with default-deny enabled. -/
def PolicyEngine.new : PolicyEngine :=
  ⟨defaultCapabilities, true⟩

/-- Single-quote character (0x27), used to build the reason strings of
`PolicyEngine::evaluate` verbatim. -/
def sq : String := String.singleton (Char.ofNat 39)

/-- Embedding of `PolicyEngine::evaluate` (src/policy.rs, lines
114‥167): role parse, linear catalogue lookup by name, risk comparison on
the `u8` values, default-deny fallback for unknown capabilities. -/
def PolicyEngine.evaluate (engine : PolicyEngine)
    (capability_name role_str : String) :
    Except EdgeClawError PolicyDecision :=
  match Role.parse_role role_str with
  | .error e => .error e
  | .ok role =>
    match engine.capabilities.find? (fun c => c.name == capability_name) with
    | some capability =>
      let max_risk := role.max_allowed_risk
      let allowed := decide (capability.risk_level.toU8 ≤ max_risk.toU8)
      let risk_u8 := capability.risk_level.toU8
      let reason :=
        if allowed then
          "Role " ++ sq ++ role_str ++ sq ++ " allowed for capability " ++ sq ++
            capability_name ++ sq ++ " (risk level " ++ toString risk_u8 ++ ")"
        else
          "Role " ++ sq ++ role_str ++ sq ++ " denied for capability " ++ sq ++
            capability_name ++ sq ++ " (risk level " ++ toString risk_u8 ++
            " exceeds max " ++ toString max_risk.toU8 ++ ")"
      .ok ⟨allowed, reason, risk_u8⟩
    | none =>
      if engine.default_deny then
        .ok ⟨false,
          "Unknown capability " ++ sq ++ capability_name ++ sq ++ " — default deny",
          3⟩
      else
        .ok ⟨true,
          "Unknown capability " ++ sq ++ capability_name ++ sq ++
            " — default allow (not recommended)",
          0⟩

/-- Peer information (src/peer.rs, `struct PeerInfo`); the RFC3339
`last_seen` string is embedded as the underlying timestamp instant
(`to_rfc3339` is an injective rendering of it). -/
structure PeerInfo where
  peer_id : String
  device_name : String
  device_type : String
  address : String
  capabilities : List String
  last_seen : Int
  is_connected : Bool
deriving DecidableEq

/-- Internal registry entry (src/peer.rs, `struct PeerEntry`). -/
structure PeerEntry where
  info : PeerInfo
  discovered_at : Int
deriving DecidableEq

/-- Registry map (src/peer.rs,
`PeerManager.peers : HashMap<String, PeerEntry>`). -/
abbrev PeerMap := String → Option PeerEntry

/-- Embedding of `PeerManager::add_peer` (src/peer.rs, lines 40‥69):
builds a PeerInfo with `is_connected = false` and `last_seen = now`,
inserts it with `discovered_at = now`, and returns it. -/
def add_peer (peers : PeerMap) (peer_id device_name device_type address : String)
    (capabilities : List String) (now : Int) : PeerInfo × PeerMap :=
  let info : PeerInfo :=
    { peer_id := peer_id
      device_name := device_name
      device_type := device_type
      address := address
      capabilities := capabilities
      last_seen := now
      is_connected := false }
  (info, fun k => if k = peer_id then some ⟨info, now⟩ else peers k)

/-- Embedding of `PeerManager::set_connected` (src/peer.rs): toggles the
flag and refreshes `last_seen` on an existing entry. -/
def set_connected (peers : PeerMap) (peer_id : String) (connected : Bool)
    (now : Int) : Except EdgeClawError PeerMap :=
  match peers peer_id with
  | none => .error .invalidParameter
  | some e =>
    .ok (fun k =>
      if k = peer_id then
        some ⟨{ e.info with is_connected := connected, last_seen := now },
          e.discovered_at⟩
      else peers k)

/-- Embedding of `PeerManager::cleanup_stale` (src/peer.rs, lines
113‥118): retains entries whose discovery timestamp is at least
`now - timeout_secs`.  The removed-entry count the source also returns
is not modelled (no claim mentions it). -/
def cleanup_stale (peers : PeerMap) (timeout_secs : Int) (now : Int) : PeerMap :=
  fun k =>
    match peers k with
    | some e => if now - timeout_secs ≤ e.discovered_at then some e else none
    | none => none

/-- Registry holding one peer previously marked connected, used in the
C10 witness. -/
def peerMapW : PeerMap :=
  fun k =>
    if k = "peer-1" then
      some ⟨⟨"peer-1", "OldName", "pc", "1.1.1.1", [], 10, true⟩, 10⟩
    else none

theorem tryFrom_toByte (t : MessageType) :
    MessageType.tryFrom t.toByte = .ok t := by
  cases t <;> rfl

theorem encode_err_of_gt (msg_type : MessageType) (p : List Nat)
    (h : p.length > MAX_PAYLOAD_SIZE) :
    EcnpCodec.encode msg_type p = .error .invalidParameter := by
  unfold EcnpCodec.encode
  rw [if_pos h]

theorem tryFrom_of_ge (k : Nat) :
    MessageType.tryFrom (k + 7) = .error .invalidParameter := rfl

theorem tryFrom_ok_iff (t : Nat) :
    (∃ mt, MessageType.tryFrom t = .ok mt) ↔ (1 ≤ t ∧ t ≤ 6) := by
  rcases Nat.lt_or_ge t 7 with h | h
  · interval_cases t <;> simp [MessageType.tryFrom]
  · obtain ⟨k, rfl⟩ : ∃ k, t = k + 7 := ⟨t - 7, by omega⟩
    simp [tryFrom_of_ge]

theorem be32val_be32 (n : Nat) (h : n < 2 ^ 32) :
    be32val (n / 2 ^ 24 % 256) (n / 2 ^ 16 % 256) (n / 2 ^ 8 % 256) (n % 256) = n := by
  simp only [be32val]
  omega

theorem decode_encode_frame (t : MessageType) (p : List Nat)
    (hp : p.length ≤ MAX_PAYLOAD_SIZE) :
    EcnpCodec.encode t p = .ok ([ECNP_VERSION, t.toByte] ++ be32 p.length ++ p) ∧
    EcnpCodec.decode ([ECNP_VERSION, t.toByte] ++ be32 p.length ++ p) =
      .ok ⟨ECNP_VERSION, t.toByte, p⟩ := by
  simp only [MAX_PAYLOAD_SIZE] at hp
  constructor
  · simp [EcnpCodec.encode, MAX_PAYLOAD_SIZE, Nat.not_lt.mpr hp]
  · have hlt : p.length < 2 ^ 32 := by omega
    simp only [ECNP_VERSION, be32, List.cons_append, List.nil_append,
      EcnpCodec.decode, tryFrom_toByte]
    rw [be32val_be32 p.length hlt]
    simp [MAX_PAYLOAD_SIZE, Nat.not_lt.mpr hp]

theorem tryFrom_eq_error (t : Nat) (h : ¬(1 ≤ t ∧ t ≤ 6)) :
    MessageType.tryFrom t = .error .invalidParameter := by
  rcases Nat.lt_or_ge t 7 with h7 | h7
  · interval_cases t <;> simp_all [MessageType.tryFrom]
  · obtain ⟨k, rfl⟩ : ∃ k, t = k + 7 := ⟨t - 7, by omega⟩
    exact tryFrom_of_ge k

theorem decode_cons (v t l3 l2 l1 l0 : Nat) (rest : List Nat) :
    EcnpCodec.decode (v :: t :: l3 :: l2 :: l1 :: l0 :: rest) =
      (if v ≠ ECNP_VERSION then .error .invalidParameter
       else
         match MessageType.tryFrom t with
         | .error e => .error e
         | .ok _ =>
           if be32val l3 l2 l1 l0 > MAX_PAYLOAD_SIZE then .error .invalidParameter
           else if rest.length < be32val l3 l2 l1 l0 then .error .invalidParameter
           else .ok ⟨v, t, rest.take (be32val l3 l2 l1 l0)⟩) := rfl

/-- C4: for every message type in 0x01‥0x06 and every payload of at most
1,048,576 bytes, ECNP decode applied to ECNP encode of (type, payload)
succeeds and returns version 0x01, the same type byte, and a payload equal
to the input payload. -/
theorem ecnp_roundtrip_c4 (t : MessageType) (p : List Nat)
    (hp : p.length ≤ 1048576) :
    ∃ frame, EcnpCodec.encode t p = .ok frame ∧
      EcnpCodec.decode frame = .ok ⟨0x01, t.toByte, p⟩ :=
  ⟨_, (decode_encode_frame t p hp).1, (decode_encode_frame t p hp).2⟩

theorem ecnp_roundtrip_c4_witness :
    [104, 105].length ≤ 1048576 ∧
    ∃ frame, EcnpCodec.encode .Heartbeat [104, 105] = .ok frame ∧
      EcnpCodec.decode frame = .ok ⟨0x01, MessageType.Heartbeat.toByte, [104, 105]⟩ :=
  ⟨by decide, ecnp_roundtrip_c4 .Heartbeat [104, 105] (by decide)⟩

/-- C5: ECNP decode fails with InvalidParameter exactly when the buffer is
shorter than 6 bytes, or the version byte is not 0x01, or the type byte is
not in 0x01‥0x06, or the declared 32-bit big-endian length exceeds
1,048,576, or the buffer is shorter than 6 plus the declared length;
otherwise it succeeds and the returned payload is exactly the
declared-length bytes following the header, ignoring any trailing bytes. -/
theorem ecnp_decode_errors_c5 (d : List Nat) :
    (d.length < 6 → EcnpCodec.decode d = .error .invalidParameter) ∧
    (∀ v t l3 l2 l1 l0 rest, d = v :: t :: l3 :: l2 :: l1 :: l0 :: rest →
      ((EcnpCodec.decode d = .error .invalidParameter) ↔
        (v ≠ 0x01 ∨ ¬(0x01 ≤ t ∧ t ≤ 0x06) ∨ be32val l3 l2 l1 l0 > 1048576 ∨
          d.length < 6 + be32val l3 l2 l1 l0)) ∧
      (¬(v ≠ 0x01 ∨ ¬(0x01 ≤ t ∧ t ≤ 0x06) ∨ be32val l3 l2 l1 l0 > 1048576 ∨
          d.length < 6 + be32val l3 l2 l1 l0) →
        EcnpCodec.decode d = .ok ⟨v, t, rest.take (be32val l3 l2 l1 l0)⟩)) := by
  constructor
  · intro hlen
    rcases d with _ | ⟨v, _ | ⟨t, _ | ⟨l3, _ | ⟨l2, _ | ⟨l1, _ | ⟨l0, rest⟩⟩⟩⟩⟩⟩
    · rfl
    · rfl
    · rfl
    · rfl
    · rfl
    · rfl
    · exfalso
      simp at hlen
      omega
  · rintro v t l3 l2 l1 l0 rest rfl
    by_cases hv : v = 0x01
    · subst hv
      by_cases ht : 0x01 ≤ t ∧ t ≤ 0x06
      · obtain ⟨mt, hmt⟩ := (tryFrom_ok_iff t).mpr ht
        by_cases hbig : be32val l3 l2 l1 l0 > 1048576
        · refine ⟨?_, fun hcon => absurd (Or.inr (Or.inr (Or.inl hbig))) hcon⟩
          simp only [decode_cons, hmt, ECNP_VERSION, MAX_PAYLOAD_SIZE]
          simp [hbig, ht]
        · by_cases hshort : rest.length < be32val l3 l2 l1 l0
          · constructor
            · simp only [decode_cons, hmt, ECNP_VERSION, MAX_PAYLOAD_SIZE,
                List.length_cons]
              simp [hbig, hshort, ht]
              omega
            · intro hcon
              refine absurd (Or.inr (Or.inr (Or.inr ?_))) hcon
              simp only [List.length_cons]
              omega
          · constructor
            · simp only [decode_cons, hmt, ECNP_VERSION, MAX_PAYLOAD_SIZE,
                List.length_cons]
              simp [hbig, hshort, ht]
              omega
            · intro _
              simp only [decode_cons, hmt, ECNP_VERSION, MAX_PAYLOAD_SIZE]
              simp [hbig, hshort]
      · refine ⟨?_, fun hcon => absurd (Or.inr (Or.inl ht)) hcon⟩
        have herr := tryFrom_eq_error t ht
        simp only [decode_cons, herr, ECNP_VERSION]
        simp [ht]
    · refine ⟨?_, fun hcon => absurd (Or.inl hv) hcon⟩
      simp only [decode_cons, ECNP_VERSION]
      simp [hv]

theorem ecnp_decode_errors_c5_witness :
    EcnpCodec.decode [1, 4, 0, 0, 0, 2, 9, 9, 9] = .ok ⟨1, 4, [9, 9]⟩ :=
  ((ecnp_decode_errors_c5 [1, 4, 0, 0, 0, 2, 9, 9, 9]).2
    1 4 0 0 0 2 [9, 9, 9] rfl).2 (by decide)

theorem is_expired_eq_false {s : Session} {now : Int} (h : now < s.expires_at) :
    s.is_expired now = false := by
  simp [Session.is_expired]
  omega

theorem is_expired_eq_true {s : Session} {now : Int} (h : s.expires_at ≤ now) :
    s.is_expired now = true := by
  simp [Session.is_expired, h]

theorem nonceBytes_length (c : Nat) : (nonceBytes c).length = 12 := rfl

theorem update_self (m : SessionMap) (k : String) (s : Session) :
    m.update k s k = some s := by
  simp [SessionMap.update]

theorem encrypt_ok_eq (A : Aead) (sessions : SessionMap) (sid : String)
    (s : Session) (pt ct : List Nat) (now : Int)
    (hs : sessions sid = some s)
    (hkey : s.session_key.length = 32)
    (hnow : now < s.expires_at)
    (henc : A.enc s.session_key (nonceBytes s.nonce_counter) pt = some ct) :
    encrypt A sessions sid pt now =
      (.ok (nonceBytes s.nonce_counter ++ ct),
        sessions.update sid
          { s with nonce_counter := (s.nonce_counter + 1) % 2 ^ 64,
                   messages_sent := (s.messages_sent + 1) % 2 ^ 64 }) := by
  simp only [encrypt, hs, is_expired_eq_false hnow, hkey, henc]
  simp

theorem decrypt_ok_eq (A : Aead) (sessions : SessionMap) (sid : String)
    (s : Session) (framed pt : List Nat) (now : Int)
    (hs : sessions sid = some s)
    (hkey : s.session_key.length = 32)
    (hnow : now < s.expires_at)
    (hlen : 12 ≤ framed.length)
    (hdec : A.dec s.session_key (framed.take 12) (framed.drop 12) = some pt) :
    decrypt A sessions sid framed now =
      (.ok pt,
        sessions.update sid
          { s with messages_received := (s.messages_received + 1) % 2 ^ 64 }) := by
  simp only [decrypt, Nat.not_lt.mpr hlen, if_false, hs,
    is_expired_eq_false hnow, hkey, hdec]
  simp

/-- C1: for every session that is not expired and every plaintext, decrypt
of encrypt returns the plaintext, and the message counters each advance by
one (so a freshly created session, whose counters are zero, ends with
`messages_sent = 1` and `messages_received = 1`).  The AES-256-GCM calls
of the aes_gcm crate enter through their functional contract `henc`/`hdec`
at the key, nonce and plaintext actually used. -/
theorem encrypt_decrypt_roundtrip_c1 (A : Aead) (sessions : SessionMap)
    (sid : String) (s : Session) (pt ct : List Nat) (now1 now2 : Int)
    (hs : sessions sid = some s)
    (hkey : s.session_key.length = 32)
    (h1 : now1 < s.expires_at) (h2 : now2 < s.expires_at)
    (henc : A.enc s.session_key (nonceBytes s.nonce_counter) pt = some ct)
    (hdec : A.dec s.session_key (nonceBytes s.nonce_counter) ct = some pt) :
    (encrypt A sessions sid pt now1).1 = .ok (nonceBytes s.nonce_counter ++ ct) ∧
    (decrypt A (encrypt A sessions sid pt now1).2 sid
      (nonceBytes s.nonce_counter ++ ct) now2).1 = .ok pt ∧
    ∃ s2, (decrypt A (encrypt A sessions sid pt now1).2 sid
        (nonceBytes s.nonce_counter ++ ct) now2).2 sid = some s2 ∧
      s2.messages_sent = (s.messages_sent + 1) % 2 ^ 64 ∧
      s2.messages_received = (s.messages_received + 1) % 2 ^ 64 := by
  have he := encrypt_ok_eq A sessions sid s pt ct now1 hs hkey h1 henc
  set s1 : Session :=
    { s with nonce_counter := (s.nonce_counter + 1) % 2 ^ 64,
             messages_sent := (s.messages_sent + 1) % 2 ^ 64 } with hs1
  have htake : (nonceBytes s.nonce_counter ++ ct).take 12 = nonceBytes s.nonce_counter := by
    rw [← nonceBytes_length s.nonce_counter]
    exact List.take_left _ _
  have hdrop : (nonceBytes s.nonce_counter ++ ct).drop 12 = ct := by
    rw [← nonceBytes_length s.nonce_counter]
    exact List.drop_left _ _
  have hlen : 12 ≤ (nonceBytes s.nonce_counter ++ ct).length := by
    simp [nonceBytes, be64]
  have hd := decrypt_ok_eq A ((encrypt A sessions sid pt now1).2) sid s1
    (nonceBytes s.nonce_counter ++ ct) pt now2
    (by rw [he]; exact update_self sessions sid s1)
    (by simpa [hs1] using hkey) h2 hlen
    (by rw [htake, hdrop]; simpa [hs1] using hdec)
  refine ⟨by rw [he], by rw [hd], ?_⟩
  refine ⟨_, by rw [hd]; exact update_self _ sid _, by simp [hs1], by simp [hs1]⟩

theorem encrypt_decrypt_roundtrip_c1_witness :
    (encrypt idAead smapW "sess-1" [1, 2, 3] 5).1 =
      .ok (nonceBytes sessW.nonce_counter ++ [1, 2, 3]) ∧
    (decrypt idAead (encrypt idAead smapW "sess-1" [1, 2, 3] 5).2 "sess-1"
      (nonceBytes sessW.nonce_counter ++ [1, 2, 3]) 6).1 = .ok [1, 2, 3] ∧
    ∃ s2, (decrypt idAead (encrypt idAead smapW "sess-1" [1, 2, 3] 5).2 "sess-1"
        (nonceBytes sessW.nonce_counter ++ [1, 2, 3]) 6).2 "sess-1" = some s2 ∧
      s2.messages_sent = (sessW.messages_sent + 1) % 2 ^ 64 ∧
      s2.messages_received = (sessW.messages_received + 1) % 2 ^ 64 :=
  encrypt_decrypt_roundtrip_c1 idAead smapW "sess-1" sessW [1, 2, 3] [1, 2, 3]
    5 6 rfl (by simp [sessW, createdSession]) (by decide) (by decide) rfl rfl

theorem expired_encrypt_eq (A : Aead) (sessions : SessionMap) (sid : String)
    (s : Session) (pt : List Nat) (now : Int)
    (hs : sessions sid = some s) (hexp : s.expires_at ≤ now) :
    encrypt A sessions sid pt now =
      (.error .sessionExpired, sessions.update sid { s with state := .Expired }) := by
  simp only [encrypt, hs, is_expired_eq_true hexp]
  simp

theorem expired_decrypt_eq (A : Aead) (sessions : SessionMap) (sid : String)
    (s : Session) (framed : List Nat) (now : Int)
    (hs : sessions sid = some s) (hexp : s.expires_at ≤ now)
    (hlen : 12 ≤ framed.length) :
    decrypt A sessions sid framed now =
      (.error .sessionExpired, sessions.update sid { s with state := .Expired }) := by
  simp only [decrypt, Nat.not_lt.mpr hlen, if_false, hs, is_expired_eq_true hexp]
  simp

/-- C3 (amended): on a session whose expiry time has been reached, every
encrypt call, and every decrypt call whose framed input is at least 12
bytes, fails with SessionExpired and transitions the session state to
Expired; a decrypt call with a shorter framed input fails with
InvalidParameter before the session is consulted, leaving the map
unchanged; no encrypt or decrypt on an expired session ever succeeds. -/
theorem expired_rejects_c3 (A : Aead) (sessions : SessionMap) (sid : String)
    (s : Session) (pt framed : List Nat) (now : Int)
    (hs : sessions sid = some s) (hexp : s.expires_at ≤ now) :
    (encrypt A sessions sid pt now).1 = .error .sessionExpired ∧
    (encrypt A sessions sid pt now).2 sid = some { s with state := .Expired } ∧
    (12 ≤ framed.length →
      (decrypt A sessions sid framed now).1 = .error .sessionExpired ∧
      (decrypt A sessions sid framed now).2 sid = some { s with state := .Expired }) ∧
    (framed.length < 12 →
      decrypt A sessions sid framed now = (.error .invalidParameter, sessions)) ∧
    (∀ out, (encrypt A sessions sid pt now).1 ≠ .ok out) ∧
    (∀ out, (decrypt A sessions sid framed now).1 ≠ .ok out) := by
  have he := expired_encrypt_eq A sessions sid s pt now hs hexp
  have hshort : framed.length < 12 →
      decrypt A sessions sid framed now = (.error .invalidParameter, sessions) := by
    intro h
    simp [decrypt, h]
  refine ⟨by rw [he], by rw [he]; exact update_self _ _ _, ?_, hshort, ?_, ?_⟩
  · intro hlen
    have hd := expired_decrypt_eq A sessions sid s framed now hs hexp hlen
    exact ⟨by rw [hd], by rw [hd]; exact update_self _ _ _⟩
  · intro out hcon
    rw [he] at hcon
    exact Except.noConfusion hcon
  · intro out hcon
    rcases Nat.lt_or_ge framed.length 12 with h | h
    · rw [hshort h] at hcon
      exact Except.noConfusion hcon
    · rw [expired_decrypt_eq A sessions sid s framed now hs hexp h] at hcon
      exact Except.noConfusion hcon

theorem expired_rejects_c3_witness :
    (encrypt idAead smapW "sess-1" [1] 5000).1 = .error .sessionExpired ∧
    (encrypt idAead smapW "sess-1" [1] 5000).2 "sess-1" =
      some { sessW with state := .Expired } ∧
    (12 ≤ (List.replicate 12 (0 : Nat)).length →
      (decrypt idAead smapW "sess-1" (List.replicate 12 0) 5000).1 =
        .error .sessionExpired ∧
      (decrypt idAead smapW "sess-1" (List.replicate 12 0) 5000).2 "sess-1" =
        some { sessW with state := .Expired }) ∧
    ((List.replicate 12 (0 : Nat)).length < 12 →
      decrypt idAead smapW "sess-1" (List.replicate 12 0) 5000 =
        (.error .invalidParameter, smapW)) ∧
    (∀ out, (encrypt idAead smapW "sess-1" [1] 5000).1 ≠ .ok out) ∧
    (∀ out, (decrypt idAead smapW "sess-1" (List.replicate 12 0) 5000).1 ≠ .ok out) :=
  expired_rejects_c3 idAead smapW "sess-1" sessW [1] (List.replicate 12 0) 5000
    rfl (by decide)

/-- Counterexample to C3 as stated: on an expired session, a decrypt call
whose framed input is shorter than 12 bytes fails with InvalidParameter,
not SessionExpired, and does not transition the session state. -/
theorem expired_decrypt_short_c3_counterexample :
    sessW.expires_at ≤ 5000 ∧
    smapW "sess-1" = some sessW ∧
    (decrypt idAead smapW "sess-1" [] 5000).1 = .error .invalidParameter ∧
    (decrypt idAead smapW "sess-1" [] 5000).1 ≠ .error .sessionExpired ∧
    (decrypt idAead smapW "sess-1" [] 5000).2 "sess-1" = some sessW ∧
    sessW.state = .Established := by
  refine ⟨by decide, rfl, rfl, by decide, rfl, rfl⟩

theorem map_sent_update (sessions : SessionMap) (sid : String) (s s2 : Session)
    (hs : sessions sid = some s) (hms : s2.messages_sent = s.messages_sent) :
    ∀ k, (sessions.update sid s2 k).map Session.messages_sent =
      (sessions k).map Session.messages_sent := by
  intro k
  by_cases hk : k = sid
  · subst hk
    simp [SessionMap.update, hs, hms]
  · simp [SessionMap.update, hk]

theorem map_recv_update (sessions : SessionMap) (sid : String) (s s2 : Session)
    (hs : sessions sid = some s) (hms : s2.messages_received = s.messages_received) :
    ∀ k, (sessions.update sid s2 k).map Session.messages_received =
      (sessions k).map Session.messages_received := by
  intro k
  by_cases hk : k = sid
  · subst hk
    simp [SessionMap.update, hs, hms]
  · simp [SessionMap.update, hk]

/-- C9: whenever encrypt returns an error, every session's messages_sent
value is unchanged; whenever decrypt returns an error, every session's
messages_received value is unchanged — the message counters advance only
on successful calls. -/
theorem counters_unchanged_on_error_c9 (A : Aead) (sessions : SessionMap)
    (sid : String) (pt framed : List Nat) (now : Int) :
    (∀ e, (encrypt A sessions sid pt now).1 = .error e →
      ∀ k, ((encrypt A sessions sid pt now).2 k).map Session.messages_sent =
        (sessions k).map Session.messages_sent) ∧
    (∀ e, (decrypt A sessions sid framed now).1 = .error e →
      ∀ k, ((decrypt A sessions sid framed now).2 k).map Session.messages_received =
        (sessions k).map Session.messages_received) := by
  constructor
  · intro e he k
    rcases hsome : sessions sid with _ | s
    · simp [encrypt, hsome]
    · cases hexp : s.is_expired now
      · by_cases hkey : s.session_key.length = 32
        · rcases hct : A.enc s.session_key (nonceBytes s.nonce_counter) pt with _ | ct
          · have h2 : (encrypt A sessions sid pt now).2 =
                sessions.update sid
                  { s with nonce_counter := (s.nonce_counter + 1) % 2 ^ 64 } := by
              simp [encrypt, hsome, hexp, hkey, hct]
            rw [h2]
            refine map_sent_update sessions sid s _ hsome ?_ k
            rfl
          · have h1 : (encrypt A sessions sid pt now).1 =
                .ok (nonceBytes s.nonce_counter ++ ct) := by
              simp [encrypt, hsome, hexp, hkey, hct]
            rw [h1] at he
            exact Except.noConfusion he
        · have h2 : (encrypt A sessions sid pt now).2 = sessions := by
            simp [encrypt, hsome, hexp, hkey]
          rw [h2]
      · have h2 : (encrypt A sessions sid pt now).2 =
            sessions.update sid { s with state := .Expired } := by
          simp [encrypt, hsome, hexp]
        rw [h2]
        refine map_sent_update sessions sid s _ hsome ?_ k
        rfl
  · intro e he k
    by_cases hlen : framed.length < 12
    · simp [decrypt, hlen]
    · rcases hsome : sessions sid with _ | s
      · simp [decrypt, hlen, hsome]
      · cases hexp : s.is_expired now
        · by_cases hkey : s.session_key.length = 32
          · rcases hct : A.dec s.session_key (framed.take 12) (framed.drop 12) with _ | ptx
            · have h2 : (decrypt A sessions sid framed now).2 = sessions := by
                simp [decrypt, hlen, hsome, hexp, hkey, hct]
              rw [h2]
            · have h1 : (decrypt A sessions sid framed now).1 = .ok ptx := by
                simp [decrypt, hlen, hsome, hexp, hkey, hct]
              rw [h1] at he
              exact Except.noConfusion he
          · have h2 : (decrypt A sessions sid framed now).2 = sessions := by
              simp [decrypt, hlen, hsome, hexp, hkey]
            rw [h2]
        · have h2 : (decrypt A sessions sid framed now).2 =
              sessions.update sid { s with state := .Expired } := by
            simp [decrypt, hlen, hsome, hexp]
          rw [h2]
          refine map_recv_update sessions sid s _ hsome ?_ k
          rfl

theorem counters_unchanged_on_error_c9_witness :
    ((encrypt idAead smapW "sess-1" [1] 5000).2 "sess-1").map Session.messages_sent =
      (smapW "sess-1").map Session.messages_sent ∧
    ((decrypt idAead smapW "sess-1" [] 5000).2 "sess-1").map Session.messages_received =
      (smapW "sess-1").map Session.messages_received :=
  ⟨(counters_unchanged_on_error_c9 idAead smapW "sess-1" [1] [] 5000).1
      .sessionExpired (by decide) "sess-1",
   (counters_unchanged_on_error_c9 idAead smapW "sess-1" [1] [] 5000).2
      .invalidParameter (by decide) "sess-1"⟩

theorem be64_mod (c : Nat) : be64 (c % 2 ^ 64) = be64 c := by
  simp only [be64, List.cons.injEq, and_true]
  omega

theorem nonceBytes_mod (c : Nat) : nonceBytes (c % 2 ^ 64) = nonceBytes c := by
  simp only [nonceBytes, be64_mod]

theorem nonceVal_nonceBytes (n : Nat) : nonceVal (nonceBytes n) = n % 2 ^ 64 := by
  simp only [nonceVal, nonceBytes, be64, List.cons_append, List.nil_append,
    List.foldl_cons, List.foldl_nil]
  omega

theorem encrypt_ok_inv (A : Aead) (st : SessionMap) (sid : String)
    (pt out : List Nat) (now : Int)
    (h : (encrypt A st sid pt now).1 = .ok out) :
    ∃ s s2 ct, st sid = some s ∧ out = nonceBytes s.nonce_counter ++ ct ∧
      (encrypt A st sid pt now).2 sid = some s2 ∧
      s2.nonce_counter = (s.nonce_counter + 1) % 2 ^ 64 ∧
      s2.messages_sent = (s.messages_sent + 1) % 2 ^ 64 := by
  rcases hsome : st sid with _ | s
  · rw [show (encrypt A st sid pt now).1 = .error .invalidParameter from by
      simp [encrypt, hsome]] at h
    exact Except.noConfusion h
  · cases hexp : s.is_expired now
    · by_cases hkey : s.session_key.length = 32
      · rcases hct : A.enc s.session_key (nonceBytes s.nonce_counter) pt with _ | ct
        · rw [show (encrypt A st sid pt now).1 = .error .cryptoError from by
            simp [encrypt, hsome, hexp, hkey, hct]] at h
          exact Except.noConfusion h
        · have h1 : (encrypt A st sid pt now).1 =
              .ok (nonceBytes s.nonce_counter ++ ct) := by
            simp [encrypt, hsome, hexp, hkey, hct]
          have h2 : (encrypt A st sid pt now).2 =
              st.update sid
                { s with nonce_counter := (s.nonce_counter + 1) % 2 ^ 64,
                         messages_sent := (s.messages_sent + 1) % 2 ^ 64 } := by
            simp [encrypt, hsome, hexp, hkey, hct]
          rw [h1] at h
          injection h with hout
          exact ⟨s, _, ct, rfl, hout.symm, by rw [h2]; exact update_self _ _ _,
            rfl, rfl⟩
      · rw [show (encrypt A st sid pt now).1 = .error .cryptoError from by
          simp [encrypt, hsome, hexp, hkey]] at h
        exact Except.noConfusion h
    · rw [show (encrypt A st sid pt now).1 = .error .sessionExpired from by
        simp [encrypt, hsome, hexp]] at h
      exact Except.noConfusion h

theorem encryptSeq_nonce (A : Aead) (sid : String)
    {st : SessionMap} {outs : List (List Nat)} {st2 : SessionMap}
    (h : EncryptSeq A sid st outs st2) :
    ∀ s, st sid = some s →
      ∀ i (hi : i < outs.length),
        (outs.get ⟨i, hi⟩).take 12 = nonceBytes ((s.nonce_counter + i) % 2 ^ 64) := by
  induction h with
  | nil st =>
    intro s hs i hi
    exact absurd hi (by simp)
  | cons st st2 pt out now outs hok hrest ih =>
    intro s hs i hi
    obtain ⟨s0, s2, ct, hs0, hout, hupd, hcnt, _⟩ :=
      encrypt_ok_inv A st sid pt out now hok
    rw [hs] at hs0
    injection hs0 with hss
    subst hss
    cases i with
    | zero =>
      show out.take 12 = nonceBytes ((s.nonce_counter + 0) % 2 ^ 64)
      rw [hout, Nat.add_zero, nonceBytes_mod, ← nonceBytes_length s.nonce_counter]
      exact List.take_left _ _
    | succ i =>
      have hlt : i < outs.length := by
        simp at hi
        omega
      have hstep := ih _ hupd i hlt
      rw [hcnt] at hstep
      have harith : ((s.nonce_counter + 1) % 2 ^ 64 + i) % 2 ^ 64 =
          (s.nonce_counter + (i + 1)) % 2 ^ 64 := by omega
      rw [harith] at hstep
      exact hstep

/-- C2 (amended): the nonces emitted by successive successful encrypt
calls are strictly increasing as 96-bit big-endian integers as long as
the u64 nonce counter does not wrap: from a session whose counter is zero
(its value at creation), any run of at most 2^64 successful encrypts
emits at position i the 12-byte nonce 0x00000000 ‖ be64(i), prepended to
the returned ciphertext, and these are strictly increasing.  (The
counter is u64 and wraps modulo 2^64, so a hypothetical run longer than
2^64 would repeat nonces.) -/
theorem nonce_monotone_c2 (A : Aead) (sid : String) (st st2 : SessionMap)
    (outs : List (List Nat)) (s : Session)
    (hseq : EncryptSeq A sid st outs st2) (hs : st sid = some s)
    (h0 : s.nonce_counter = 0) (hcount : outs.length ≤ 2 ^ 64) :
    (∀ i (hi : i < outs.length),
      (outs.get ⟨i, hi⟩).take 12 = [0, 0, 0, 0] ++ be64 i) ∧
    (∀ i j (hij : i < j) (hj : j < outs.length),
      nonceVal ((outs.get ⟨i, Nat.lt_trans hij hj⟩).take 12) <
        nonceVal ((outs.get ⟨j, hj⟩).take 12)) := by
  have key : ∀ i (hi : i < outs.length), (outs.get ⟨i, hi⟩).take 12 = nonceBytes i := by
    intro i hi
    have hmono := encryptSeq_nonce A sid hseq s hs i hi
    rwa [h0, Nat.zero_add, Nat.mod_eq_of_lt (lt_of_lt_of_le hi hcount)] at hmono
  refine ⟨fun i hi => key i hi, fun i j hij hj => ?_⟩
  rw [key i (Nat.lt_trans hij hj), key j hj, nonceVal_nonceBytes, nonceVal_nonceBytes,
    Nat.mod_eq_of_lt (lt_of_lt_of_le (Nat.lt_trans hij hj) hcount),
    Nat.mod_eq_of_lt (lt_of_lt_of_le hj hcount)]
  exact hij

theorem nonce_monotone_c2_witness :
    nonceVal ((nonceBytes 0 ++ [7]).take 12) <
      nonceVal ((nonceBytes 1 ++ [8]).take 12) := by
  have h1 : (encrypt idAead smapW "sess-1" [7] 0).1 = .ok (nonceBytes 0 ++ [7]) := by
    decide
  have h2 : (encrypt idAead (encrypt idAead smapW "sess-1" [7] 0).2 "sess-1" [8] 0).1 =
      .ok (nonceBytes 1 ++ [8]) := by
    decide
  have hseq : EncryptSeq idAead "sess-1" smapW
      [nonceBytes 0 ++ [7], nonceBytes 1 ++ [8]]
      (encrypt idAead (encrypt idAead smapW "sess-1" [7] 0).2 "sess-1" [8] 0).2 :=
    .cons _ _ _ _ _ _ h1 (.cons _ _ _ _ _ _ h2 (.nil _))
  exact (nonce_monotone_c2 idAead "sess-1" smapW _ _ sessW hseq rfl rfl
    (by decide)).2 0 1 (by decide) (by decide)

/-- Counterexample to C2 as stated: a session whose u64 nonce counter has
reached its maximum (as after 2^64 - 1 encrypt calls) emits its maximal
nonce and then wraps to the all-zero nonce on the next successful
encrypt, so the emitted sequence is not strictly increasing. -/
theorem nonce_wraparound_c2_counterexample :
    (∃ stf, EncryptSeq idAead "sess-1" smapC2
      [nonceBytes (2 ^ 64 - 1) ++ [1], nonceBytes 0 ++ [2]] stf) ∧
    ¬ nonceVal ((nonceBytes (2 ^ 64 - 1) ++ [1]).take 12) <
      nonceVal ((nonceBytes 0 ++ [2]).take 12) := by
  exact ⟨⟨_, .cons _ _ [1] _ 0 _ (by decide)
      (.cons _ _ [2] _ 0 _ (by decide) (.nil _))⟩, by decide⟩

/-- C6 (amended): decode_ecnp does not reject on the reserved sub-type
range.  For an ECNP Data frame whose payload is a reserved byte
0x14‥0x1F followed by body bytes, the outcome is decided solely by
JSON-decoding the body: a successful JSON decode yields
(sub-type, message) even for reserved sub-types, and a JSON failure
(the spec's SerializationError) propagates unchanged. -/
theorem reserved_subtype_c6 (J : SyncJson) (frame : List Nat)
    (msg : EcnpMessage) (stb : Nat) (rest : List Nat)
    (hdec : EcnpCodec.decode frame = .ok msg)
    (hdata : msg.msg_type = MessageType.Data.toByte)
    (hpayload : msg.payload = stb :: rest)
    (h14 : 0x14 ≤ stb) (h1f : stb ≤ 0x1F) :
    (∀ m, J.from_slice rest = .ok m → decode_ecnp J frame = .ok (stb, m)) ∧
    (∀ e, J.from_slice rest = .error e → decode_ecnp J frame = .error e) := by
  constructor
  · intro m hm
    simp [decode_ecnp, hdec, hdata, hpayload, hm]
  · intro e hee
    simp [decode_ecnp, hdec, hdata, hpayload, hee]

theorem reserved_subtype_c6_witness :
    decode_ecnp serdeLs reservedFrame = .ok (0x14, msgRemoteExecLs) :=
  (reserved_subtype_c6 serdeLs reservedFrame ⟨1, 2, 0x14 :: jsonRemoteExecLs⟩
    0x14 jsonRemoteExecLs rfl rfl rfl (by decide) (by decide)).1
    msgRemoteExecLs rfl

/-- Counterexample to C6 as stated: an ECNP Data frame whose first
payload byte is the reserved sub-type 0x14 but whose body is a valid
RemoteExec JSON document is accepted by decode_ecnp (the sub-type byte is
recorded, never checked), so it is not rejected with SerializationError. -/
theorem reserved_subtype_accepted_c6_counterexample :
    EcnpCodec.decode reservedFrame = .ok ⟨1, 2, 0x14 :: jsonRemoteExecLs⟩ ∧
    decode_ecnp serdeLs reservedFrame = .ok (0x14, msgRemoteExecLs) ∧
    decode_ecnp serdeLs reservedFrame ≠ .error .serializationError := by
  have hpos : decode_ecnp serdeLs reservedFrame = .ok (0x14, msgRemoteExecLs) := rfl
  exact ⟨rfl, hpos, fun h => Except.noConfusion (hpos.symm.trans h)⟩

/-- C7 (amended): for every SyncMessage whose JSON serialisation fits the
ECNP payload bound (at most 1,048,575 bytes, leaving room for the
one-byte sub-type code), decode_ecnp applied to encode_ecnp succeeds and
returns (sync_type_code m, m), the frame riding on message type Data with
the sub-type prefix; decode_ecnp fails with InvalidParameter when the
frame's message type is not Data or the payload is empty.  The serde_json
round trip on m enters through the hypotheses. -/
theorem sync_roundtrip_c7 (J : SyncJson) (m : SyncMessage) (json : List Nat)
    (hto : J.to_vec m = .ok json)
    (hfrom : J.from_slice json = .ok m)
    (hlen : json.length + 1 ≤ 1048576) :
    (∃ frame, encode_ecnp J m = .ok frame ∧
      decode_ecnp J frame = .ok (m.sync_type_code, m)) ∧
    (∀ frame msg, EcnpCodec.decode frame = .ok msg →
      msg.msg_type ≠ MessageType.Data.toByte →
      decode_ecnp J frame = .error .invalidParameter) ∧
    (∀ frame msg, EcnpCodec.decode frame = .ok msg → msg.payload = [] →
      decode_ecnp J frame = .error .invalidParameter) := by
  refine ⟨?_, ?_, ?_⟩
  · have hplen : (m.sync_type_code :: json).length ≤ MAX_PAYLOAD_SIZE := by
      simp only [List.length_cons, MAX_PAYLOAD_SIZE]
      omega
    have hframe := decode_encode_frame .Data (m.sync_type_code :: json) hplen
    refine ⟨[ECNP_VERSION, MessageType.Data.toByte] ++
      be32 (m.sync_type_code :: json).length ++ m.sync_type_code :: json, ?_, ?_⟩
    · simp only [encode_ecnp, hto]
      exact hframe.1
    · simp only [decode_ecnp, hframe.2]
      simp [MessageType.toByte, hfrom]
  · intro frame msg hdec hne
    simp [decode_ecnp, hdec, hne]
  · intro frame msg hdec hemp
    simp [decode_ecnp, hdec, hemp]

theorem sync_roundtrip_c7_witness :
    ∃ frame, encode_ecnp serdeLs msgRemoteExecLs = .ok frame ∧
      decode_ecnp serdeLs frame =
        .ok (msgRemoteExecLs.sync_type_code, msgRemoteExecLs) :=
  (sync_roundtrip_c7 serdeLs msgRemoteExecLs jsonRemoteExecLs rfl rfl
    (by decide)).1

/-- Counterexample to C7 as stated: a SyncMessage whose JSON
serialisation exceeds the maximum ECNP payload (here a RemoteExec whose
command alone is 1,048,576 characters) cannot even be encoded —
encode_ecnp fails with InvalidParameter, so decode of encode does not
succeed for every SyncMessage. -/
theorem sync_encode_too_large_c7_counterexample :
    encode_ecnp serdeBig bigMsg = .error .invalidParameter ∧
    ∀ frame, encode_ecnp serdeBig bigMsg ≠ .ok frame := by
  have hser : serdeBig.to_vec bigMsg = .ok (List.replicate 1048617 97) := rfl
  have hl : ((bigMsg.sync_type_code :: List.replicate 1048617 97) : List Nat).length >
      MAX_PAYLOAD_SIZE := by
    rw [List.length_cons, List.length_replicate]
    decide
  have h : encode_ecnp serdeBig bigMsg = .error .invalidParameter := by
    simp only [encode_ecnp, hser]
    exact encode_err_of_gt .Data _ hl
  exact ⟨h, fun frame hcon => Except.noConfusion (h.symm.trans hcon)⟩

theorem find_defaultCapabilities :
    ∀ c ∈ defaultCapabilities,
      defaultCapabilities.find? (fun x => x.name == c.name) = some c := by
  decide

theorem parse_role_error_eq (s : String) (e : EdgeClawError)
    (he : Role.parse_role s = .error e) : e = .invalidParameter := by
  simp only [Role.parse_role] at he
  split_ifs at he <;> simp_all [eq_comm]

/-- C8: for every capability in the built-in catalogue and every string
that parses (case-insensitively) to a role, evaluate succeeds with
allowed true exactly when the capability's risk is at most the role's
maximum allowed risk and with risk_level equal to the catalogue risk; for
every capability name outside the catalogue and any parsed role, evaluate
succeeds with allowed false and risk_level 3; for every unknown role
string, evaluate fails with InvalidParameter. -/
theorem policy_evaluate_c8 (c : Capability) (hc : c ∈ defaultCapabilities)
    (name roleStr : String) (r : Role) :
    (Role.parse_role roleStr = .ok r →
      ∃ d, PolicyEngine.new.evaluate c.name roleStr = .ok d ∧
        (d.allowed = true ↔ c.risk_level.toU8 ≤ r.max_allowed_risk.toU8) ∧
        d.risk_level = c.risk_level.toU8) ∧
    ((∀ cap ∈ defaultCapabilities, cap.name ≠ name) →
      Role.parse_role roleStr = .ok r →
      ∃ d, PolicyEngine.new.evaluate name roleStr = .ok d ∧
        d.allowed = false ∧ d.risk_level = 3) ∧
    (∀ e, Role.parse_role roleStr = .error e →
      PolicyEngine.new.evaluate name roleStr = .error .invalidParameter) := by
  refine ⟨?_, ?_, ?_⟩
  · intro hr
    have hfind := find_defaultCapabilities c hc
    simp only [PolicyEngine.evaluate, PolicyEngine.new, hr, hfind]
    exact ⟨_, rfl, by simp, rfl⟩
  · intro hnone hr
    have hfind : defaultCapabilities.find? (fun x => x.name == name) = none := by
      rw [List.find?_eq_none]
      intro x hx
      simp [hnone x hx]
    simp only [PolicyEngine.evaluate, PolicyEngine.new, hr, hfind, if_true]
    exact ⟨_, rfl, rfl, rfl⟩
  · intro e he
    have h2 := parse_role_error_eq roleStr e he
    subst h2
    simp only [PolicyEngine.evaluate, he]

theorem policy_evaluate_c8_witness :
    (∃ d, PolicyEngine.new.evaluate "shell_exec" "viewer" = .ok d ∧
      (d.allowed = true ↔
        RiskLevel.High.toU8 ≤ Role.Viewer.max_allowed_risk.toU8) ∧
      d.risk_level = RiskLevel.High.toU8) ∧
    (∃ d, PolicyEngine.new.evaluate "launch_missiles" "owner" = .ok d ∧
      d.allowed = false ∧ d.risk_level = 3) ∧
    PolicyEngine.new.evaluate "status_query" "hacker" = .error .invalidParameter :=
  ⟨(policy_evaluate_c8 ⟨"shell_exec", .High, "Execute shell commands"⟩
      (by decide) "x" "viewer" .Viewer).1 (by decide),
   (policy_evaluate_c8 ⟨"shell_exec", .High, "Execute shell commands"⟩
      (by decide) "launch_missiles" "owner" .Owner).2.1 (by decide) (by decide),
   (policy_evaluate_c8 ⟨"shell_exec", .High, "Execute shell commands"⟩
      (by decide) "status_query" "hacker" .Viewer).2.2 .invalidParameter (by decide)⟩

/-- C10: add_peer stores and returns a PeerInfo with is_connected false
and freshly set last_seen and discovery timestamps, whatever the prior
registry state (so re-adding a peer previously marked connected resets
the flag), and the fresh discovery timestamp restarts the staleness
clock: any cleanup whose cutoff is at or before the re-add instant
retains the entry. -/
theorem add_peer_resets_c10 (peers : PeerMap)
    (pid dn dt addr : String) (caps : List String) (now : Int) :
    (add_peer peers pid dn dt addr caps now).1.is_connected = false ∧
    (add_peer peers pid dn dt addr caps now).1.last_seen = now ∧
    (add_peer peers pid dn dt addr caps now).2 pid =
      some ⟨(add_peer peers pid dn dt addr caps now).1, now⟩ ∧
    (∀ timeout now2, now2 - timeout ≤ now →
      cleanup_stale (add_peer peers pid dn dt addr caps now).2 timeout now2 pid =
        some ⟨(add_peer peers pid dn dt addr caps now).1, now⟩) := by
  refine ⟨rfl, rfl, by simp [add_peer], ?_⟩
  intro timeout now2 h
  simp [cleanup_stale, add_peer, h]

theorem add_peer_resets_c10_witness :
    (peerMapW "peer-1").map (fun e => e.info.is_connected) = some true ∧
    (add_peer peerMapW "peer-1" "NewName" "pc" "2.2.2.2" [] 50).1.is_connected = false ∧
    (add_peer peerMapW "peer-1" "NewName" "pc" "2.2.2.2" [] 50).1.last_seen = 50 ∧
    (add_peer peerMapW "peer-1" "NewName" "pc" "2.2.2.2" [] 50).2 "peer-1" =
      some ⟨(add_peer peerMapW "peer-1" "NewName" "pc" "2.2.2.2" [] 50).1, 50⟩ ∧
    cleanup_stale (add_peer peerMapW "peer-1" "NewName" "pc" "2.2.2.2" [] 50).2
      30 60 "peer-1" =
      some ⟨(add_peer peerMapW "peer-1" "NewName" "pc" "2.2.2.2" [] 50).1, 50⟩ := by
  have h := add_peer_resets_c10 peerMapW "peer-1" "NewName" "pc" "2.2.2.2" [] 50
  exact ⟨rfl, h.1, h.2.1, h.2.2.1, h.2.2.2 30 60 (by decide)⟩
